import Mathlib

/-!
Shallow embedding of the ClipGen request-orchestration core:
credential registry operations from `src/clipgen/core/list_manager.py`
(`ConfigListManager`), key rotation from `src/clipgen/api/base.py`
(`APIProvider.switch_to_next_key`, `get_active_key` as implemented by both
providers), and the retry loop, busy gate, polling loop, usage-timestamp
recording and cancellation-token slot of
`src/clipgen/api/processor.py` (`TextProcessor`).
-/

namespace ClipGen

/-- One API key entry, as stored in the config lists `api_keys` /
`openai_api_keys`: `key` is the secret (absent or empty modelled as `""`),
`name` is the display label (`none` when the dict has no `name` field),
`active` the rotation flag, and `usage_timestamps` the recorded usage
times (seconds, modelled as integers). -/
structure Credential where
  key : String
  name : Option String
  active : Bool
  usage_timestamps : List Int
deriving Repr, DecidableEq

/-- Character-list prefix test (`ps` is a prefix of the second list). -/
def listPrefix : List Char → List Char → Bool
  | [], _ => true
  | _ :: _, [] => false
  | p :: ps, c :: cs => p == c && listPrefix ps cs

/-- Character-list substring test: the pattern occurs at some position. -/
def hasSubstr : List Char → List Char → Bool
  | [], ps => ps.isEmpty
  | c :: cs, ps => listPrefix ps (c :: cs) || hasSubstr cs ps

/-- Python substring test `pat in s`. -/
def containsStr (s pat : String) : Bool :=
  hasSubstr s.data pat.data

/-- Python `str.lower()` (ASCII case folding, as in the error messages the
processor matches on). -/
def strLower (s : String) : String :=
  ⟨s.data.map Char.toLower⟩

/-- Mirrors the providers' `get_active_key` (gemini.py / openai_compat.py):
the first list entry whose `active` field is truthy, else `None`. -/
def get_active_key : List Credential → Option Credential
  | [] => none
  | c :: cs => if c.active then some c else get_active_key cs

/-- Index of the first active entry, mirroring the loop in
`switch_to_next_key` (base.py lines 82-86) that computes `current_index`
(`none` models `-1`, i.e. no active entry found). -/
def findActiveIdx : List Credential → Option Nat
  | [] => none
  | c :: cs => if c.active then some 0 else (findActiveIdx cs).map (· + 1)

/-- Single-index flag assignment `keys[i]["active"] = b`. -/
def setActiveFlag : List Credential → Nat → Bool → List Credential
  | [], _, _ => []
  | c :: cs, 0, b => { c with active := b } :: cs
  | c :: cs, i + 1, b => c :: setActiveFlag cs i b

/-- All `active` flags set to `False`. -/
def clearFlags : List Credential → List Credential
  | [] => []
  | c :: cs => { c with active := false } :: clearFlags cs

/-- The list whose flags mark exactly position `a` (the shape produced by
`set_active`'s elementwise loop and by rotation). -/
def patternAt (l : List Credential) (a : Nat) : List Credential :=
  setActiveFlag (clearFlags l) a true

/-- The label `keys[next_index].get("name", f"Key N+1")` returned by
`switch_to_next_key` (base.py line 98). -/
def labelAt (l : List Credential) (i : Nat) : String :=
  ((l[i]?).bind (·.name)).getD ("Key " ++ toString (i + 1))

/-- `APIProvider.switch_to_next_key` (base.py lines 72-98): no-op returning
`None` when fewer than 2 keys exist; otherwise deactivates the first active
index (if any), activates `(current_index + 1) % len(keys)` and returns the
new entry's label. The `reconfigure` side effect touches only the backend
client, not this state. -/
def switch_to_next_key (keys : List Credential) : Option String × List Credential :=
  if keys.length < 2 then (none, keys)
  else
    let keys1 :=
      match findActiveIdx keys with
      | some i => setActiveFlag keys i false
      | none => keys
    let ni := (match findActiveIdx keys with
      | some i => i + 1
      | none => 0) % keys.length
    let keys2 := setActiveFlag keys1 ni true
    match keys2[ni]? with
    | some c => (some (c.name.getD ("Key " ++ toString (ni + 1))), keys2)
    | none => (none, keys2)

/-- The registry invariant: exactly one entry carries the active flag. -/
def exactlyOneActive (keys : List Credential) : Prop :=
  keys.countP (·.active) = 1

instance (keys : List Credential) : Decidable (exactlyOneActive keys) := by
  unfold exactlyOneActive; infer_instance

/-- Result of a `ConfigListManager` operation: the returned boolean, the
list afterwards, and whether the injected `save` / `refresh` callbacks
were invoked before returning. -/
structure OpResult where
  ok : Bool
  items : List Credential
  saved : Bool
  refreshed : Bool
deriving Repr, DecidableEq

/-- `ConfigListManager.add` (list_manager.py lines 41-65): deep-copies the
given item, marks it active when the list was empty, appends it, then calls
`save` and `refresh`. (The returned new index, `len - 1`, is not modelled;
no claim mentions it.) -/
def cm_add (keys : List Credential) (item : Credential) : OpResult :=
  let new_item := if keys.length = 0 then { item with active := true } else item
  ⟨true, keys ++ [new_item], true, true⟩

/-- `ConfigListManager.delete` (list_manager.py lines 67-91): bounds-checked;
deletes the entry, re-activates index 0 when the deleted entry was active
and entries remain, then calls `save` and `refresh`. -/
def cm_delete (keys : List Credential) (index : Int) : OpResult :=
  if 0 ≤ index ∧ index < (keys.length : Int) then
    let i := index.toNat
    let wasActive := match keys[i]? with
      | some c => c.active
      | none => false
    let rest := keys.eraseIdx i
    let rest2 := if wasActive && !rest.isEmpty then setActiveFlag rest 0 true else rest
    ⟨true, rest2, true, true⟩
  else ⟨false, keys, false, false⟩

/-- `ConfigListManager.set_active` (list_manager.py lines 93-118),
boolean-flag variant taken for credential lists: bounds-checked; assigns
`item["active"] = (i == index)` elementwise — i.e. clears every flag and
sets the one at `index` — then calls `save` and `refresh`. (The `else`
branch for model lists keyed by an external `active_field` is not modelled;
no claim concerns it.) -/
def cm_set_active (keys : List Credential) (index : Int) : OpResult :=
  if 0 ≤ index ∧ index < (keys.length : Int) then
    ⟨true, patternAt keys index.toNat, true, true⟩
  else ⟨false, keys, false, false⟩

/-- Element update at an index, for `items[index][field] = value`. -/
def updateAt : List Credential → Nat → (Credential → Credential) → List Credential
  | [], _, _ => []
  | c :: cs, 0, f => f c :: cs
  | c :: cs, i + 1, f => c :: updateAt cs i f

/-- `ConfigListManager.update_field` (list_manager.py lines 120-144):
bounds-checked; updates one field of one item, then calls `save` only —
there is no `refresh` call on this path. (The propagation of a renamed
item into the config's external `active_field` reference concerns the
model-list variant and is not modelled.) -/
def cm_update_field (keys : List Credential) (index : Int)
    (f : Credential → Credential) : OpResult :=
  if 0 ≤ index ∧ index < (keys.length : Int) then
    ⟨true, updateAt keys index.toNat f, true, false⟩
  else ⟨false, keys, false, false⟩

/-- `TextProcessor._update_key_timestamp` (processor.py lines 94-106):
finds the active credential (first active entry), appends `now` to its
`usage_timestamps`, then keeps only entries with `now - ts < 86400`.
No persistence or refresh callback is invoked by this function itself. -/
def update_key_timestamp : List Credential → Int → List Credential
  | [], _ => []
  | c :: cs, now =>
    if c.active then
      { c with usage_timestamps :=
          (c.usage_timestamps ++ [now]).filter (fun ts => decide (now - ts < 86400)) } :: cs
    else c :: update_key_timestamp cs now

/-- A sequence of `recordUsage` calls at the given times, in order. -/
def recordSeq (keys : List Credential) (times : List Int) : List Credential :=
  times.foldl update_key_timestamp keys

/-- Outcome of one adapter call as observed by the retry loop: the worker
put either a result string or an exception (its message) on the queue. -/
inductive GenOutcome where
  | ok (s : String)
  | err (msg : String)
deriving Repr, DecidableEq

/-- The in-loop quota test of `process` (processor.py lines 215-218):
`err_str = str(result).lower()` then `"429" in err_str or "quota" in err_str`. -/
def isQuotaRetry (msg : String) : Bool :=
  containsStr (strLower msg) "429" || containsStr (strLower msg) "quota"

/-- Everything observable about one `process()` call: returned string,
number of loop iterations (`attempt` counter), number of
`switch_to_next_key` invocations, the key-switch labels notified, the
error raised after the loop and logged by the boundary handler (`none`
when nothing was raised), whether `on_error` fired inside `process`,
whether the success-path `save` ran, the credential list afterwards, and
whether the call was rejected at the non-blocking lock. -/
structure ProcResult where
  output : String
  attempts : Nat
  rotationCalls : Nat
  keySwitches : List String
  surfaced : Option String
  errorNotified : Bool
  savedCalled : Bool
  keys : List Credential
  busy : Bool
deriving Repr, DecidableEq

/-- The retry loop of `TextProcessor.process` (processor.py lines 161-242)
for runs in which no cancellation occurs, so each worker deterministically
hands back `adapter attempt`. Per iteration: increment `attempt`; re-fetch
the active credential and fail with `on_error` if it is missing, empty or
a `YOUR_KEY` placeholder; on an exception matching the quota test with
auto-switch enabled call `switch_to_next_key` and continue when it returns
a truthy label (Python truthiness: not `None`, not `""`), else record it
as `last_error` and break; on success break. After the loop a truthy
success updates the active key's timestamps and saves; a recorded
`last_error` is re-raised and surfaces at the boundary handler; otherwise
the empty string is returned silently. -/
def processLoop : Bool → (Nat → GenOutcome) → List Credential → Int → Nat →
    Nat → Nat → List String → ProcResult
  | _, _, keys, _, 0, attempt, rot, sw =>
    ⟨"", attempt, rot, sw.reverse, none, false, false, keys, false⟩
  | autoSwitch, adapter, keys, now, fuel + 1, attempt, rot, sw =>
    match get_active_key keys with
    | none => ⟨"", attempt + 1, rot, sw.reverse, none, true, false, keys, false⟩
    | some kd =>
      if kd.key = "" then
        ⟨"", attempt + 1, rot, sw.reverse, none, true, false, keys, false⟩
      else if containsStr kd.key "YOUR_KEY" then
        ⟨"", attempt + 1, rot, sw.reverse, none, true, false, keys, false⟩
      else
        match adapter (attempt + 1) with
        | GenOutcome.ok s =>
          if s = "" then
            ⟨"", attempt + 1, rot, sw.reverse, none, false, false, keys, false⟩
          else
            ⟨s, attempt + 1, rot, sw.reverse, none, false, true,
              update_key_timestamp keys now, false⟩
        | GenOutcome.err msg =>
          if isQuotaRetry msg && autoSwitch then
            match switch_to_next_key keys with
            | (some lab, keys2) =>
              if lab = "" then
                ⟨"", attempt + 1, rot + 1, sw.reverse, some msg, false, false, keys2, false⟩
              else
                processLoop autoSwitch adapter keys2 now fuel (attempt + 1)
                  (rot + 1) (lab :: sw)
            | (none, keys2) =>
              ⟨"", attempt + 1, rot + 1, sw.reverse, some msg, false, false, keys2, false⟩
          else ⟨"", attempt + 1, rot, sw.reverse, some msg, false, false, keys, false⟩

/-- `max_attempts = max(len(api_keys) * 2, 1)` (processor.py line 159). -/
def maxAttemptsFor (keys : List Credential) : Nat :=
  max (2 * keys.length) 1

/-- `TextProcessor.process` around the loop (processor.py lines 140-273):
the cancel-event slot is set, then the global generation lock is tried
non-blocking; if it is already held the call clears the slot, fires
`on_error` and returns `""` at once — no attempt, no rotation, no log.
Otherwise the retry loop runs with `max_attempts` fuel. `lockHeld` models
the state of `genai_lock` at entry. -/
def processRun (lockHeld autoSwitch : Bool) (adapter : Nat → GenOutcome)
    (keys : List Credential) (now : Int) : ProcResult :=
  if lockHeld then ⟨"", 0, 0, [], none, true, false, keys, true⟩
  else processLoop autoSwitch adapter keys now (maxAttemptsFor keys) 0 0 []

/-- Outcome of the wait-for-worker poll (processor.py lines 202-212):
either cancellation was observed at some poll index (and `process` returned
`""` right there), or the worker finished and its queued result was read. -/
inductive PollOutcome where
  | cancelled (poll : Nat)
  | delivered (r : GenOutcome)
deriving Repr, DecidableEq

/-- One step of `while worker_thread.is_alive(): if cancel_event.is_set():
return ""` — `w` is how many more polls the worker stays alive, `t` the
current poll index, `c` the poll index from which the token is set. -/
def pollGo : Nat → Nat → Nat → GenOutcome → PollOutcome
  | 0, _, _, r => PollOutcome.delivered r
  | w + 1, t, c, r =>
    if c ≤ t then PollOutcome.cancelled t else pollGo w (t + 1) c r

/-- The polling wait: the worker stays alive for `w` polls, the
cancellation token is set from poll index `c` on, the worker's eventual
queued result is `r`. -/
def pollLoop (w c : Nat) (r : GenOutcome) : PollOutcome :=
  pollGo w 0 c r

/-- What the surrounding attempt does with the poll outcome: on observed
cancellation `process` returns `""` immediately and the abandoned worker's
result is never read (`none`); otherwise the queued result is consumed. -/
def attemptViaPoll (w c : Nat) (r : GenOutcome) : Option GenOutcome :=
  match pollLoop w c r with
  | PollOutcome.cancelled _ => none
  | PollOutcome.delivered res => some res

/-- Writes to the shared `current_task_event` slot, identified by the
numeric id of the writing `process()` call's token. -/
inductive SlotOp where
  | set (tid : Nat)
  | clear
deriving Repr, DecidableEq

/-- Effect of one slot write (`self.current_task_event = ...` under
`task_lock`). -/
def slotStep (_ : Option Nat) : SlotOp → Option Nat
  | SlotOp.set t => some t
  | SlotOp.clear => none

/-- The slot after a sequence of writes starting from state `s`. -/
def runSlot (s : Option Nat) (ops : List SlotOp) : Option Nat :=
  ops.foldl slotStep s

/-- Slot writes performed by a `process()` call rejected at the busy lock
(processor.py lines 141-149): it stores its own fresh token, fails the
non-blocking acquire, then sets the slot to `None`. -/
def busyRejectedOps (tid : Nat) : List SlotOp :=
  [SlotOp.set tid, SlotOp.clear]

/-- Slot writes performed by a `process()` call that acquires the lock and
runs to completion (processor.py lines 141-143 and 270-273): store the
fresh token, and clear the slot in the `finally` block. -/
def completedCallOps (tid : Nat) : List SlotOp :=
  [SlotOp.set tid, SlotOp.clear]

/-- `switch_to_next_key` applied `k` times in a row (keeping only the list;
each call's returned label is dropped). -/
def rotateIter : Nat → List Credential → List Credential
  | 0, keys => keys
  | k + 1, keys => rotateIter k (switch_to_next_key keys).2

/-- Which injected callbacks a registry operation invoked before
returning: the persistence callback (`save`) and the UI-refresh callback. -/
structure Effects where
  saved : Bool
  refreshed : Bool
deriving Repr, DecidableEq

/-- `switch_to_next_key` together with the callbacks it invokes: the
method (base.py lines 72-98) calls neither a save nor a refresh callback —
`APIProvider` holds no such callbacks; its only side effects are the flag
mutation and `reconfigure` on the backend client. -/
def switch_to_next_key_full (keys : List Credential) :
    (Option String × List Credential) × Effects :=
  (switch_to_next_key keys, ⟨false, false⟩)

/-- `_update_key_timestamp` together with the callbacks it invokes: the
method (processor.py lines 94-106) calls neither `save` nor a refresh
callback itself (the processor calls `self.save()` separately on the
success path, line 237). -/
def update_key_timestamp_full (keys : List Credential) (now : Int) :
    List Credential × Effects :=
  (update_key_timestamp keys now, ⟨false, false⟩)

/-- A credential's label is truthy in Python's sense: either the `name`
field is absent (the positional fallback applies) or it is non-empty. -/
def labelOk (c : Credential) : Bool :=
  match c.name with
  | none => true
  | some s => s != ""

/-- Usable credential list for the retry loop: every key is non-empty, no
key is a `YOUR_KEY` placeholder, and every label is truthy. -/
def goodCreds (l : List Credential) : Prop :=
  ∀ c ∈ l, c.key ≠ "" ∧ containsStr c.key "YOUR_KEY" = false ∧ labelOk c = true

instance (l : List Credential) : Decidable (goodCreds l) := by
  unfold goodCreds; infer_instance

/-- The quota classifier as the claim words it (spec refinement target, not
source code): lowercased message contains `429`, `quota` or `exhausted`. -/
def specQuotaClassifierC6 (msg : String) : Bool :=
  containsStr (strLower msg) "429" || containsStr (strLower msg) "quota" ||
    containsStr (strLower msg) "exhausted"

/-! Helper lemmas about flags, patterns and rotation, shared by several
claim theorems. -/

theorem credential_eta (c : Credential) (b : Bool) (h : c.active = b) :
    { c with active := b } = c := by
  subst h; rfl

@[simp] theorem length_clearFlags (l : List Credential) :
    (clearFlags l).length = l.length := by
  induction l with
  | nil => rfl
  | cons c cs ih => simp [clearFlags, ih]

@[simp] theorem length_setActiveFlag (l : List Credential) (i : Nat) (b : Bool) :
    (setActiveFlag l i b).length = l.length := by
  induction l generalizing i with
  | nil => rfl
  | cons c cs ih =>
    cases i with
    | zero => simp [setActiveFlag]
    | succ j => simp [setActiveFlag, ih]

@[simp] theorem length_patternAt (l : List Credential) (a : Nat) :
    (patternAt l a).length = l.length := by
  simp [patternAt]

@[simp] theorem patternAt_nil (a : Nat) : patternAt [] a = [] := rfl

@[simp] theorem patternAt_cons_zero (c : Credential) (cs : List Credential) :
    patternAt (c :: cs) 0 = { c with active := true } :: clearFlags cs := rfl

@[simp] theorem patternAt_cons_succ (c : Credential) (cs : List Credential) (a : Nat) :
    patternAt (c :: cs) (a + 1) = { c with active := false } :: patternAt cs a := rfl

@[simp] theorem findActiveIdx_nil : findActiveIdx [] = none := rfl

@[simp] theorem findActiveIdx_cons (c : Credential) (cs : List Credential) :
    findActiveIdx (c :: cs) =
      if c.active then some 0 else (findActiveIdx cs).map (· + 1) := rfl

@[simp] theorem get_active_key_nil : get_active_key [] = none := rfl

@[simp] theorem get_active_key_cons (c : Credential) (cs : List Credential) :
    get_active_key (c :: cs) = if c.active then some c else get_active_key cs := rfl

@[simp] theorem countP_clearFlags (l : List Credential) :
    (clearFlags l).countP (·.active) = 0 := by
  induction l with
  | nil => rfl
  | cons c cs ih => simp [clearFlags, List.countP_cons, ih]

theorem clearFlags_of_no_active (l : List Credential)
    (h : ∀ c ∈ l, c.active = false) : clearFlags l = l := by
  induction l with
  | nil => rfl
  | cons c cs ih =>
    have hca : c.active = false := h c (by simp)
    have hcs : ∀ d ∈ cs, d.active = false := fun d hd => h d (by simp [hd])
    simp [clearFlags, ih hcs, credential_eta c false hca]

theorem countP_patternAt (l : List Credential) (a : Nat) (h : a < l.length) :
    (patternAt l a).countP (·.active) = 1 := by
  induction l generalizing a with
  | nil => simp at h
  | cons c cs ih =>
    cases a with
    | zero => simp [List.countP_cons]
    | succ j =>
      have hj : j < cs.length := by simpa using Nat.lt_of_succ_lt_succ h
      simp [List.countP_cons, ih j hj]

theorem findActiveIdx_patternAt (l : List Credential) (a : Nat) (h : a < l.length) :
    findActiveIdx (patternAt l a) = some a := by
  induction l generalizing a with
  | nil => simp at h
  | cons c cs ih =>
    cases a with
    | zero => simp
    | succ j =>
      have hj : j < cs.length := by simpa using Nat.lt_of_succ_lt_succ h
      simp [ih j hj]

theorem getElem?_clearFlags (l : List Credential) (i : Nat) :
    (clearFlags l)[i]? = (l[i]?).map (fun c => { c with active := false }) := by
  induction l generalizing i with
  | nil => simp [clearFlags]
  | cons c cs ih =>
    cases i with
    | zero => simp [clearFlags]
    | succ j => simp [clearFlags, ih]

theorem getElem?_patternAt (l : List Credential) (a i : Nat) :
    (patternAt l a)[i]? = (l[i]?).map (fun c => { c with active := i == a }) := by
  induction l generalizing a i with
  | nil => simp
  | cons c cs ih =>
    cases a with
    | zero =>
      cases i with
      | zero => simp
      | succ j => simp [getElem?_clearFlags]
    | succ b =>
      cases i with
      | zero => simp
      | succ j => simpa using ih b j

theorem get_active_key_patternAt (l : List Credential) (a : Nat) (h : a < l.length) :
    get_active_key (patternAt l a) =
      (l[a]?).map (fun c => { c with active := true }) := by
  induction l generalizing a with
  | nil => simp at h
  | cons c cs ih =>
    cases a with
    | zero => simp
    | succ j =>
      have hj : j < cs.length := by simpa using Nat.lt_of_succ_lt_succ h
      simp [ih j hj]

theorem setActiveFlag_setActiveFlag (l : List Credential) (i : Nat) (b b' : Bool) :
    setActiveFlag (setActiveFlag l i b) i b' = setActiveFlag l i b' := by
  induction l generalizing i with
  | nil => rfl
  | cons c cs ih =>
    cases i with
    | zero => simp [setActiveFlag]
    | succ j => simp [setActiveFlag, ih]

theorem setActiveFlag_clearFlags_false (l : List Credential) (i : Nat) :
    setActiveFlag (clearFlags l) i false = clearFlags l := by
  induction l generalizing i with
  | nil => rfl
  | cons c cs ih =>
    cases i with
    | zero => simp [setActiveFlag, clearFlags]
    | succ j => simp [setActiveFlag, clearFlags, ih]

theorem setActiveFlag_patternAt_false (l : List Credential) (a : Nat) :
    setActiveFlag (patternAt l a) a false = clearFlags l := by
  rw [patternAt, setActiveFlag_setActiveFlag, setActiveFlag_clearFlags_false]

theorem one_active_decomp (l : List Credential) (h : l.countP (·.active) = 1) :
    ∃ a, a < l.length ∧ findActiveIdx l = some a ∧ l = patternAt l a := by
  induction l with
  | nil => simp at h
  | cons c cs ih =>
    rw [List.countP_cons] at h
    cases hca : c.active with
    | true =>
      rw [hca] at h
      simp at h
      refine ⟨0, by simp, by simp [hca], ?_⟩
      rw [patternAt_cons_zero, credential_eta c true hca,
        clearFlags_of_no_active cs h]
    | false =>
      rw [hca] at h
      simp at h
      obtain ⟨a, ha, hfind, heq⟩ := ih h
      refine ⟨a + 1, by simpa using Nat.succ_lt_succ ha, ?_, ?_⟩
      · simp [hca, hfind]
      · rw [patternAt_cons_succ, credential_eta c false hca]
        exact congrArg (c :: ·) heq

theorem exists_getElem?_of_lt (l : List Credential) (i : Nat) (h : i < l.length) :
    ∃ c, l[i]? = some c := by
  induction l generalizing i with
  | nil => simp at h
  | cons c cs ih =>
    cases i with
    | zero => exact ⟨c, by simp⟩
    | succ j =>
      have hj : j < cs.length := by simpa using Nat.lt_of_succ_lt_succ h
      simpa using ih j hj

theorem mem_of_getElem? (l : List Credential) (i : Nat) (c : Credential)
    (h : l[i]? = some c) : c ∈ l := by
  induction l generalizing i with
  | nil => simp at h
  | cons d ds ih =>
    cases i with
    | zero => simp at h; simp [h]
    | succ j =>
      simp at h
      exact List.mem_cons_of_mem d (ih j h)

theorem switch_to_next_key_patternAt (l : List Credential) (a : Nat)
    (hlen : 2 ≤ l.length) (ha : a < l.length) :
    switch_to_next_key (patternAt l a) =
      (some (labelAt l ((a + 1) % l.length)),
       patternAt l ((a + 1) % l.length)) := by
  have hpos : 0 < l.length := by omega
  have hni : (a + 1) % l.length < l.length := Nat.mod_lt _ hpos
  obtain ⟨c, hc⟩ := exists_getElem?_of_lt l ((a + 1) % l.length) hni
  have hnotlt : ¬ (patternAt l a).length < 2 := by simp; omega
  rw [switch_to_next_key, if_neg hnotlt, findActiveIdx_patternAt l a ha]
  simp only [length_patternAt, setActiveFlag_patternAt_false]
  have hget : (setActiveFlag (clearFlags l) ((a + 1) % l.length) true)[(a + 1) % l.length]? =
      some { c with active := true } := by
    have := getElem?_patternAt l ((a + 1) % l.length) ((a + 1) % l.length)
    rw [patternAt] at this
    simp [this, hc]
  rw [hget]
  simp [labelAt, patternAt, hc]

theorem rotateIter_patternAt (l : List Credential) (hlen : 2 ≤ l.length) :
    ∀ (k a : Nat), a < l.length →
      rotateIter k (patternAt l a) = patternAt l ((a + k) % l.length) := by
  intro k
  induction k with
  | zero =>
    intro a ha
    simp [rotateIter, Nat.mod_eq_of_lt ha]
  | succ k ih =>
    intro a ha
    have hpos : 0 < l.length := by omega
    have hstep := switch_to_next_key_patternAt l a hlen ha
    have hni : (a + 1) % l.length < l.length := Nat.mod_lt _ hpos
    calc rotateIter (k + 1) (patternAt l a)
        = rotateIter k (switch_to_next_key (patternAt l a)).2 := rfl
      _ = rotateIter k (patternAt l ((a + 1) % l.length)) := by rw [hstep]
      _ = patternAt l (((a + 1) % l.length + k) % l.length) := ih _ hni
      _ = patternAt l ((a + (k + 1)) % l.length) := by
          rw [Nat.mod_add_mod]
          ring_nf

theorem countP_eraseIdx (l : List Credential) (i : Nat) (c : Credential)
    (h : l[i]? = some c) :
    (l.eraseIdx i).countP (·.active) + (if c.active then 1 else 0) =
      l.countP (·.active) := by
  induction l generalizing i with
  | nil => simp at h
  | cons d ds ih =>
    cases i with
    | zero =>
      simp at h
      subst h
      simp [List.eraseIdx, List.countP_cons]
    | succ j =>
      simp at h
      have := ih j h
      simp [List.eraseIdx, List.countP_cons]
      omega

theorem countP_setActiveFlag_zero_head (l : List Credential)
    (hne : l ≠ []) (h : l.countP (·.active) = 0) :
    (setActiveFlag l 0 true).countP (·.active) = 1 := by
  cases l with
  | nil => exact absurd rfl hne
  | cons c cs =>
    rw [List.countP_cons] at h
    cases hca : c.active with
    | true => rw [hca] at h; simp at h
    | false =>
      rw [hca] at h
      simp at h
      simp [setActiveFlag, List.countP_cons]
      exact h

theorem fallback_label_ne_empty (n : Nat) : ("Key " ++ toString (n + 1)) ≠ "" := by
  intro h
  have h2 := congrArg String.length h
  rw [String.length_append] at h2
  simp at h2
  exact absurd h2.1 (by decide)

theorem labelAt_ne_empty (l : List Credential) (i : Nat)
    (hg : goodCreds l) (hi : i < l.length) : labelAt l i ≠ "" := by
  obtain ⟨c, hc⟩ := exists_getElem?_of_lt l i hi
  have hmem := mem_of_getElem? l i c hc
  have hok := (hg c hmem).2.2
  rw [labelAt, hc]
  cases hn : c.name with
  | none =>
    simp [hn]
    exact fallback_label_ne_empty i
  | some s =>
    rw [labelOk, hn] at hok
    simp [hn]
    simpa using hok

theorem processLoop_step_err (autoSwitch : Bool) (adapter : Nat → GenOutcome)
    (keys : List Credential) (now : Int) (fuel attempt rot : Nat)
    (sw : List String) (kd : Credential) (m : String)
    (hga : get_active_key keys = some kd)
    (hk1 : ¬(kd.key = ""))
    (hk2 : containsStr kd.key "YOUR_KEY" = false)
    (hres : adapter (attempt + 1) = GenOutcome.err m) :
    processLoop autoSwitch adapter keys now (fuel + 1) attempt rot sw =
      (if isQuotaRetry m && autoSwitch then
        match switch_to_next_key keys with
        | (some lab, keys2) =>
          if lab = "" then
            ⟨"", attempt + 1, rot + 1, sw.reverse, some m, false, false, keys2, false⟩
          else
            processLoop autoSwitch adapter keys2 now fuel (attempt + 1)
              (rot + 1) (lab :: sw)
        | (none, keys2) =>
          ⟨"", attempt + 1, rot + 1, sw.reverse, some m, false, false, keys2, false⟩
      else ⟨"", attempt + 1, rot, sw.reverse, some m, false, false, keys, false⟩) := by
  rw [processLoop, hga]
  dsimp only
  rw [if_neg hk1, if_neg (by simp [hk2]), hres]

theorem processLoop_quota_allfail (l : List Credential) (m : String) (now : Int)
    (hg : goodCreds l) (hq : isQuotaRetry m = true) (hlen : 2 ≤ l.length) :
    ∀ (fuel a attempt rot : Nat) (sw : List String), a < l.length →
      (processLoop true (fun _ => GenOutcome.err m) (patternAt l a) now fuel attempt rot sw).output = ""
      ∧ (processLoop true (fun _ => GenOutcome.err m) (patternAt l a) now fuel attempt rot sw).attempts = attempt + fuel
      ∧ (processLoop true (fun _ => GenOutcome.err m) (patternAt l a) now fuel attempt rot sw).rotationCalls = rot + fuel
      ∧ (processLoop true (fun _ => GenOutcome.err m) (patternAt l a) now fuel attempt rot sw).surfaced = none
      ∧ (processLoop true (fun _ => GenOutcome.err m) (patternAt l a) now fuel attempt rot sw).errorNotified = false
      ∧ (processLoop true (fun _ => GenOutcome.err m) (patternAt l a) now fuel attempt rot sw).savedCalled = false := by
  intro fuel
  induction fuel with
  | zero =>
    intro a attempt rot sw ha
    simp [processLoop]
  | succ fuel ih =>
    intro a attempt rot sw ha
    obtain ⟨c, hc⟩ := exists_getElem?_of_lt l a ha
    have hmem := mem_of_getElem? l a c hc
    have hga : get_active_key (patternAt l a) = some { c with active := true } := by
      rw [get_active_key_patternAt l a ha, hc]
      rfl
    have hpos : 0 < l.length := by omega
    have hni : (a + 1) % l.length < l.length := Nat.mod_lt _ hpos
    have hrot := switch_to_next_key_patternAt l a hlen ha
    have hlab : labelAt l ((a + 1) % l.length) ≠ "" := labelAt_ne_empty l _ hg hni
    rw [processLoop_step_err true _ (patternAt l a) now fuel attempt rot sw _ m hga
      (by simpa using (hg c hmem).1) (by simpa using (hg c hmem).2.1) rfl]
    rw [if_pos (by simp [hq]), hrot]
    dsimp only
    rw [if_neg hlab]
    obtain ⟨h1, h2, h3, h4, h5, h6⟩ :=
      ih ((a + 1) % l.length) (attempt + 1) (rot + 1)
        (labelAt l ((a + 1) % l.length) :: sw) hni
    refine ⟨h1, ?_, ?_, h4, h5, h6⟩
    · rw [h2]; omega
    · rw [h3]; omega

theorem processLoop_quota_single (l : List Credential) (m : String) (now : Int)
    (hg : goodCreds l) (hq : isQuotaRetry m = true) (hlen1 : l.length = 1) :
    ∀ (fuel attempt rot : Nat) (sw : List String),
      processLoop true (fun _ => GenOutcome.err m) (patternAt l 0) now (fuel + 1) attempt rot sw =
        ⟨"", attempt + 1, rot + 1, sw.reverse, some m, false, false, patternAt l 0, false⟩ := by
  intro fuel attempt rot sw
  have ha : 0 < l.length := by omega
  obtain ⟨c, hc⟩ := exists_getElem?_of_lt l 0 ha
  have hmem := mem_of_getElem? l 0 c hc
  have hga : get_active_key (patternAt l 0) = some { c with active := true } := by
    rw [get_active_key_patternAt l 0 ha, hc]
    rfl
  have hswitch : switch_to_next_key (patternAt l 0) = (none, patternAt l 0) := by
    rw [switch_to_next_key, if_pos (by simp [hlen1])]
  rw [processLoop_step_err true _ (patternAt l 0) now fuel attempt rot sw _ m hga
    (by simpa using (hg c hmem).1) (by simpa using (hg c hmem).2.1) rfl]
  rw [if_pos (by simp [hq]), hswitch]

/-! Claim theorems. -/

/-- C8: for every credential list with `N ≥ 2` entries and exactly one
active entry, calling `switch_to_next_key` `N` times in a row restores the
original list (in particular the originally active credential is active
again); with 0 or 1 credentials a single call returns `none` and mutates
nothing. -/
theorem c8_round_robin_closure :
    (∀ keys : List Credential, exactlyOneActive keys → 2 ≤ keys.length →
      rotateIter keys.length keys = keys)
    ∧ (∀ keys : List Credential, keys.length < 2 →
      switch_to_next_key keys = (none, keys)) := by
  constructor
  · intro keys hone hlen
    obtain ⟨a, ha, _, heq⟩ := one_active_decomp keys hone
    nth_rewrite 2 [heq]
    rw [rotateIter_patternAt keys hlen keys.length a ha,
      Nat.add_mod_right, Nat.mod_eq_of_lt ha]
    exact heq.symm
  · intro keys hlen
    rw [switch_to_next_key, if_pos hlen]

/-- Witness for C8 at concrete inputs: a two-credential registry returns to
its original state after two rotations, and empty or single-credential
registries are left untouched with a `none` label. -/
theorem c8_round_robin_closure_witness :
    rotateIter 2 [⟨"ka", some "A", true, []⟩, ⟨"kb", some "B", false, []⟩] =
      [⟨"ka", some "A", true, []⟩, ⟨"kb", some "B", false, []⟩]
    ∧ switch_to_next_key ([] : List Credential) = (none, [])
    ∧ switch_to_next_key [⟨"ka", some "A", true, []⟩] =
      (none, [⟨"ka", some "A", true, []⟩]) :=
  ⟨c8_round_robin_closure.1
     [⟨"ka", some "A", true, []⟩, ⟨"kb", some "B", false, []⟩]
     (by decide) (by decide),
   c8_round_robin_closure.2 [] (by decide),
   c8_round_robin_closure.2 [⟨"ka", some "A", true, []⟩] (by decide)⟩

/-- C2: for every non-empty credential list, exactly one credential has the
active flag set, and this is preserved by every operation — `add` of a
fresh (not pre-activated) credential, which becomes active when it is the
first item; `set_active` on a valid index; rotation; and `delete`, which
activates index 0 when the active item is removed and items remain. -/
theorem c2_exactly_one_active_preserved :
    (∀ item : Credential, exactlyOneActive (cm_add [] item).items)
    ∧ (∀ (keys : List Credential) (item : Credential), exactlyOneActive keys →
        item.active = false → exactlyOneActive (cm_add keys item).items)
    ∧ (∀ (keys : List Credential) (index : Int), exactlyOneActive keys →
        (cm_set_active keys index).ok = true →
        exactlyOneActive (cm_set_active keys index).items)
    ∧ (∀ (keys : List Credential) (index : Int), exactlyOneActive keys →
        (cm_delete keys index).items ≠ [] →
        exactlyOneActive (cm_delete keys index).items)
    ∧ (∀ keys : List Credential, exactlyOneActive keys →
        exactlyOneActive (switch_to_next_key keys).2) := by
  refine ⟨?_, ?_, ?_, ?_, ?_⟩
  · intro item
    simp [cm_add, exactlyOneActive, List.countP_cons]
  · intro keys item hone hitem
    have hne : keys.length ≠ 0 := by
      intro h0
      rw [List.length_eq_zero] at h0
      subst h0
      simp [exactlyOneActive] at hone
    unfold exactlyOneActive at hone ⊢
    simp [cm_add, hne, List.countP_append, List.countP_cons, hitem, hone]
  · intro keys index hone hok
    by_cases hv : 0 ≤ index ∧ index < (keys.length : Int)
    · have hlt : index.toNat < keys.length := by omega
      unfold exactlyOneActive
      simp [cm_set_active, hv, countP_patternAt keys index.toNat hlt]
    · simp [cm_set_active, hv] at hok
  · intro keys index hone hne
    by_cases hv : 0 ≤ index ∧ index < (keys.length : Int)
    · have hlt : index.toNat < keys.length := by omega
      obtain ⟨c, hc⟩ := exists_getElem?_of_lt keys index.toNat hlt
      have herase := countP_eraseIdx keys index.toNat c hc
      unfold exactlyOneActive at hone ⊢
      rw [cm_delete, if_pos hv] at hne ⊢
      simp only [hc] at hne ⊢
      cases hca : c.active with
      | true =>
        rw [hca] at herase
        simp at herase
        have h0 : (keys.eraseIdx index.toNat).countP (·.active) = 0 := by omega
        have hrne : keys.eraseIdx index.toNat ≠ [] := by
          intro hnil
          rw [hca] at hne
          simp [hnil] at hne
        simp [hca, List.isEmpty_iff, hrne,
          countP_setActiveFlag_zero_head _ hrne h0]
      | false =>
        rw [hca] at herase
        simp at herase
        simp [hca]
        omega
    · rw [cm_delete, if_neg hv] at hne ⊢
      exact hone
  · intro keys hone
    by_cases hlen : keys.length < 2
    · rw [switch_to_next_key, if_pos hlen]
      exact hone
    · have hlen2 : 2 ≤ keys.length := by omega
      obtain ⟨a, ha, _, heq⟩ := one_active_decomp keys hone
      have hstep := switch_to_next_key_patternAt keys a hlen2 ha
      rw [← heq] at hstep
      rw [hstep]
      unfold exactlyOneActive
      exact countP_patternAt keys _ (Nat.mod_lt _ (by omega))

/-- Witness for C2 at concrete inputs: each operation applied to a small
concrete registry keeps exactly one flag set. -/
theorem c2_exactly_one_active_preserved_witness :
    exactlyOneActive (cm_add [] ⟨"n", some "New Key", false, []⟩).items
    ∧ exactlyOneActive
        (cm_add [⟨"ka", some "A", true, []⟩] ⟨"n", some "New Key", false, []⟩).items
    ∧ exactlyOneActive
        (cm_set_active [⟨"ka", some "A", true, []⟩, ⟨"kb", some "B", false, []⟩] 1).items
    ∧ exactlyOneActive
        (cm_delete [⟨"ka", some "A", true, []⟩, ⟨"kb", some "B", false, []⟩] 0).items
    ∧ exactlyOneActive
        (switch_to_next_key [⟨"ka", some "A", true, []⟩, ⟨"kb", some "B", false, []⟩]).2 :=
  ⟨c2_exactly_one_active_preserved.1 ⟨"n", some "New Key", false, []⟩,
   c2_exactly_one_active_preserved.2.1 [⟨"ka", some "A", true, []⟩]
     ⟨"n", some "New Key", false, []⟩ (by decide) (by decide),
   c2_exactly_one_active_preserved.2.2.1
     [⟨"ka", some "A", true, []⟩, ⟨"kb", some "B", false, []⟩] 1
     (by decide) (by decide),
   c2_exactly_one_active_preserved.2.2.2.1
     [⟨"ka", some "A", true, []⟩, ⟨"kb", some "B", false, []⟩] 0
     (by decide) (by decide),
   c2_exactly_one_active_preserved.2.2.2.2
     [⟨"ka", some "A", true, []⟩, ⟨"kb", some "B", false, []⟩] (by decide)⟩

/-- C10: for every out-of-range index (negative or at least the list
length), `delete`, `set_active` and `update_field` return `False`, leave
the list untouched, and invoke neither the save nor the refresh
callback. -/
theorem c10_out_of_range_noop :
    ∀ (keys : List Credential) (index : Int),
      (index < 0 ∨ (keys.length : Int) ≤ index) →
      cm_delete keys index = ⟨false, keys, false, false⟩
      ∧ cm_set_active keys index = ⟨false, keys, false, false⟩
      ∧ ∀ f : Credential → Credential,
          cm_update_field keys index f = ⟨false, keys, false, false⟩ := by
  intro keys index h
  have hv : ¬(0 ≤ index ∧ index < (keys.length : Int)) := by omega
  exact ⟨by rw [cm_delete, if_neg hv], by rw [cm_set_active, if_neg hv],
    fun f => by rw [cm_update_field, if_neg hv]⟩

/-- Witness for C10 at concrete inputs: index `-1` and index `2` on a
two-credential list are rejected without any mutation or callback. -/
theorem c10_out_of_range_noop_witness :
    cm_delete [⟨"ka", some "A", true, []⟩, ⟨"kb", some "B", false, []⟩] (-1) =
      ⟨false, [⟨"ka", some "A", true, []⟩, ⟨"kb", some "B", false, []⟩], false, false⟩
    ∧ cm_set_active [⟨"ka", some "A", true, []⟩, ⟨"kb", some "B", false, []⟩] (-1) =
      ⟨false, [⟨"ka", some "A", true, []⟩, ⟨"kb", some "B", false, []⟩], false, false⟩
    ∧ ∀ f : Credential → Credential,
        cm_update_field [⟨"ka", some "A", true, []⟩, ⟨"kb", some "B", false, []⟩] 2 f =
          ⟨false, [⟨"ka", some "A", true, []⟩, ⟨"kb", some "B", false, []⟩], false, false⟩ :=
  ⟨(c10_out_of_range_noop
      [⟨"ka", some "A", true, []⟩, ⟨"kb", some "B", false, []⟩] (-1)
      (by decide)).1,
   (c10_out_of_range_noop
      [⟨"ka", some "A", true, []⟩, ⟨"kb", some "B", false, []⟩] (-1)
      (by decide)).2.1,
   (c10_out_of_range_noop
      [⟨"ka", some "A", true, []⟩, ⟨"kb", some "B", false, []⟩] 2
      (by decide)).2.2⟩

/-- C7 counterexample: the claim that every mutating registry call fires
both the persistence and the UI-refresh callback is false at concrete
inputs — `update_field` on a valid index fires no refresh, and
`switch_to_next_key` (rotation) fires no save at all. -/
theorem c7_counterexample :
    ¬((cm_update_field [⟨"ka", some "A", true, []⟩] 0
        (fun c => { c with key := "kz" })).refreshed = true)
    ∧ ¬((switch_to_next_key_full
        [⟨"ka", some "A", true, []⟩, ⟨"kb", some "B", false, []⟩]).2.saved = true) := by
  constructor
  · intro h
    simp [cm_update_field] at h
  · intro h
    simp [switch_to_next_key_full] at h

/-- C7 amended: `add`, `delete` and `set_active` fire both the save and
the refresh callback before returning (on their success paths);
`update_field` fires only save; `switch_to_next_key` (rotation) and
`_update_key_timestamp` (usage recording) fire neither — the processor
persists separately via its own `save()` on the success path. -/
theorem c7_amended_callbacks :
    (∀ (keys : List Credential) (item : Credential),
      (cm_add keys item).saved = true ∧ (cm_add keys item).refreshed = true)
    ∧ (∀ (keys : List Credential) (index : Int),
        (cm_delete keys index).ok = true →
        (cm_delete keys index).saved = true ∧ (cm_delete keys index).refreshed = true)
    ∧ (∀ (keys : List Credential) (index : Int),
        (cm_set_active keys index).ok = true →
        (cm_set_active keys index).saved = true ∧ (cm_set_active keys index).refreshed = true)
    ∧ (∀ (keys : List Credential) (index : Int) (f : Credential → Credential),
        (cm_update_field keys index f).ok = true →
        (cm_update_field keys index f).saved = true
        ∧ (cm_update_field keys index f).refreshed = false)
    ∧ (∀ keys : List Credential, (switch_to_next_key_full keys).2 = Effects.mk false false)
    ∧ (∀ (keys : List Credential) (now : Int),
        (update_key_timestamp_full keys now).2 = Effects.mk false false) := by
  refine ⟨?_, ?_, ?_, ?_, fun _ => rfl, fun _ _ => rfl⟩
  · intro keys item
    exact ⟨rfl, rfl⟩
  · intro keys index hok
    by_cases hv : 0 ≤ index ∧ index < (keys.length : Int)
    · rw [cm_delete, if_pos hv]
      exact ⟨rfl, rfl⟩
    · rw [cm_delete, if_neg hv] at hok
      simp at hok
  · intro keys index hok
    by_cases hv : 0 ≤ index ∧ index < (keys.length : Int)
    · rw [cm_set_active, if_pos hv]
      exact ⟨rfl, rfl⟩
    · rw [cm_set_active, if_neg hv] at hok
      simp at hok
  · intro keys index f hok
    by_cases hv : 0 ≤ index ∧ index < (keys.length : Int)
    · rw [cm_update_field, if_pos hv]
      exact ⟨rfl, rfl⟩
    · rw [cm_update_field, if_neg hv] at hok
      simp at hok

/-- Witness for C7 at concrete inputs: each operation's callback pair on a
small concrete registry. -/
theorem c7_amended_callbacks_witness :
    ((cm_add [] ⟨"n", some "New Key", false, []⟩).saved = true
      ∧ (cm_add [] ⟨"n", some "New Key", false, []⟩).refreshed = true)
    ∧ ((cm_delete [⟨"ka", some "A", true, []⟩] 0).saved = true
      ∧ (cm_delete [⟨"ka", some "A", true, []⟩] 0).refreshed = true)
    ∧ ((cm_set_active [⟨"ka", some "A", true, []⟩] 0).saved = true
      ∧ (cm_set_active [⟨"ka", some "A", true, []⟩] 0).refreshed = true)
    ∧ ((cm_update_field [⟨"ka", some "A", true, []⟩] 0
          (fun c => { c with key := "kz" })).saved = true
      ∧ (cm_update_field [⟨"ka", some "A", true, []⟩] 0
          (fun c => { c with key := "kz" })).refreshed = false) :=
  ⟨c7_amended_callbacks.1 [] ⟨"n", some "New Key", false, []⟩,
   c7_amended_callbacks.2.1 [⟨"ka", some "A", true, []⟩] 0 (by decide),
   c7_amended_callbacks.2.2.1 [⟨"ka", some "A", true, []⟩] 0 (by decide),
   c7_amended_callbacks.2.2.2.1 [⟨"ka", some "A", true, []⟩] 0
     (fun c => { c with key := "kz" }) (by decide)⟩

/-- C3: when the global generation lock is already held, `process()`
returns the empty string at once: no attempt is made, no rotation happens,
nothing is logged or saved, the credential list is untouched, the
`on_error` notification fires and the failure is the Busy rejection (not a
quota error or a retry). -/
theorem c3_busy_fail_fast :
    ∀ (autoSwitch : Bool) (adapter : Nat → GenOutcome)
      (keys : List Credential) (now : Int),
      processRun true autoSwitch adapter keys now =
        ⟨"", 0, 0, [], none, true, false, keys, true⟩ :=
  fun _ _ _ _ => rfl

/-- C5 counterexample: the claim that no other `process()` invocation
changes the in-flight operation's current token is false — starting from a
slot holding the in-flight call's token `0`, a concurrent call rejected as
Busy leaves the slot `None`, not `some 0`. -/
theorem c5_counterexample :
    ¬(runSlot (some 0) (busyRejectedOps 1) = some 0) := by decide

/-- C5 amended: the token slot is written at the start of every
`process()` call before the lock test (overwriting whatever token was
current), and is cleared to `None` both when the call is rejected as Busy
and at a completed call's end; hence a Busy-rejected invocation does
change the in-flight operation's current token — first to its own token,
then to `None`. -/
theorem c5_amended_token_slot :
    ∀ (s : Option Nat) (tid : Nat),
      runSlot s [SlotOp.set tid] = some tid
      ∧ runSlot s (busyRejectedOps tid) = none
      ∧ runSlot s (completedCallOps tid) = none :=
  fun _ _ => ⟨rfl, rfl, rfl⟩

theorem pollGo_cancel (w : Nat) :
    ∀ (t c : Nat) (r : GenOutcome), t ≤ c → c < t + w →
      pollGo w t c r = PollOutcome.cancelled c := by
  induction w with
  | zero =>
    intro t c r h1 h2
    omega
  | succ w ih =>
    intro t c r h1 h2
    rw [pollGo]
    by_cases hct : c ≤ t
    · rw [if_pos hct, Nat.le_antisymm h1 hct]
    · rw [if_neg hct]
      exact ih (t + 1) c r (by omega) (by omega)

/-- C4: if the cancellation token is set at poll index `c` while the
worker is still alive (`c < w`), the polling loop returns at exactly that
poll — `process` returns the empty string there — and the abandoned
worker's eventual result is never read: the attempt outcome is `none`
independently of whether the worker later succeeds or fails, so the
worker's result can never reach the `on_success`/`on_error` callbacks. -/
theorem c4_cancel_discards_worker :
    ∀ (w c : Nat) (r r2 : GenOutcome), c < w →
      pollLoop w c r = PollOutcome.cancelled c
      ∧ attemptViaPoll w c r = none
      ∧ attemptViaPoll w c r = attemptViaPoll w c r2 := by
  intro w c r r2 h
  have h1 : pollLoop w c r = PollOutcome.cancelled c :=
    pollGo_cancel w 0 c r (Nat.zero_le c) (by omega)
  have h2 : pollLoop w c r2 = PollOutcome.cancelled c :=
    pollGo_cancel w 0 c r2 (Nat.zero_le c) (by omega)
  refine ⟨h1, ?_, ?_⟩
  · rw [attemptViaPoll, h1]
  · rw [attemptViaPoll, attemptViaPoll, h1, h2]

/-- Witness for C4 at concrete inputs: token set at poll 1, worker alive
for 3 polls — the loop cancels at poll 1 and discards the worker's result
whether it was a success or a failure. -/
theorem c4_cancel_discards_worker_witness :
    pollLoop 3 1 (GenOutcome.ok "late success") = PollOutcome.cancelled 1
    ∧ attemptViaPoll 3 1 (GenOutcome.ok "late success") = none
    ∧ attemptViaPoll 3 1 (GenOutcome.ok "late success") =
        attemptViaPoll 3 1 (GenOutcome.err "late failure") :=
  c4_cancel_discards_worker 3 1 (GenOutcome.ok "late success")
    (GenOutcome.err "late failure") (by decide)

theorem update_key_timestamp_fresh (l : List Credential) (now : Int) :
    ∀ (i : Nat) (c : Credential),
      findActiveIdx (update_key_timestamp l now) = some i →
      (update_key_timestamp l now)[i]? = some c →
      ∀ x ∈ c.usage_timestamps, now - x < 86400 := by
  induction l with
  | nil =>
    intro i c hf _
    simp [update_key_timestamp] at hf
  | cons d ds ih =>
    intro i c hf hg
    cases hda : d.active with
    | true =>
      rw [update_key_timestamp, if_pos hda] at hf hg
      rw [findActiveIdx_cons] at hf
      simp [hda] at hf
      subst hf
      simp at hg
      subst hg
      intro x hx
      simp at hx
      rcases hx with ⟨_, hlt⟩ | hxeq
      · exact hlt
      · subst hxeq
        omega
    | false =>
      rw [update_key_timestamp, if_neg (by simp [hda])] at hf hg
      rw [findActiveIdx_cons, if_neg (by simp [hda])] at hf
      cases hfi : findActiveIdx (update_key_timestamp ds now) with
      | none => rw [hfi] at hf; simp at hf
      | some j =>
        rw [hfi] at hf
        simp at hf
        subst hf
        simp at hg
        exact ih j c hfi hg

/-- C9: after any sequence of `recordUsage` calls with arbitrary
timestamps, the active credential's `usage_timestamps` contains only
entries strictly younger than 86400 seconds relative to the time of the
last call — each call appends `now` and then filters out older entries, so
the list never retains stale entries. -/
theorem c9_timestamps_pruned :
    ∀ (keys : List Credential) (ts : List Int) (t : Int) (i : Nat) (c : Credential),
      findActiveIdx (recordSeq keys (ts ++ [t])) = some i →
      (recordSeq keys (ts ++ [t]))[i]? = some c →
      ∀ x ∈ c.usage_timestamps, t - x < 86400 := by
  intro keys ts t i c hf hg
  have hseq : recordSeq keys (ts ++ [t]) =
      update_key_timestamp (recordSeq keys ts) t := by
    rw [recordSeq, recordSeq, List.foldl_append]
    rfl
  rw [hseq] at hf hg
  exact update_key_timestamp_fresh (recordSeq keys ts) t i c hf hg

/-- Witness for C9 at concrete inputs: after calls at times 50 and 100 on
a registry whose active credential still held a stale stamp from time
`-100000`, the retained stamps are `[0, 50, 100]` and each of them is
younger than 86400 seconds relative to the last call at time 100. -/
theorem c9_timestamps_pruned_witness :
    recordSeq [⟨"k", some "A", true, [0, -100000]⟩] [50, 100] =
      [⟨"k", some "A", true, [0, 50, 100]⟩]
    ∧ (100 : Int) - 0 < 86400
    ∧ (100 : Int) - 50 < 86400
    ∧ (100 : Int) - 100 < 86400 :=
  ⟨by decide,
   c9_timestamps_pruned [⟨"k", some "A", true, [0, -100000]⟩] [50] 100 0
     ⟨"k", some "A", true, [0, 50, 100]⟩ (by decide) (by decide) 0 (by decide),
   c9_timestamps_pruned [⟨"k", some "A", true, [0, -100000]⟩] [50] 100 0
     ⟨"k", some "A", true, [0, 50, 100]⟩ (by decide) (by decide) 50 (by decide),
   c9_timestamps_pruned [⟨"k", some "A", true, [0, -100000]⟩] [50] 100 0
     ⟨"k", some "A", true, [0, 50, 100]⟩ (by decide) (by decide) 100 (by decide)⟩

/-- C1 counterexample: the claim fails at concrete inputs — with K = 1
credential and an always-quota adapter `process()` performs 1 attempt,
not `2K = 2`; with K = 2 it invokes rotation 4 times, not at most
`K - 1 = 1`, and surfaces no error at all after exhausting the loop
(`last_error` is never set on the rotate-and-continue path). -/
theorem c1_counterexample :
    (processRun false true (fun _ => GenOutcome.err "429 quota exceeded")
      [⟨"ka", some "A", true, []⟩] 0).attempts = 1
    ∧ ¬((processRun false true (fun _ => GenOutcome.err "429 quota exceeded")
      [⟨"ka", some "A", true, []⟩] 0).attempts =
        2 * ([⟨"ka", some "A", true, []⟩] : List Credential).length)
    ∧ (processRun false true (fun _ => GenOutcome.err "429 quota exceeded")
      [⟨"ka", some "A", true, []⟩, ⟨"kb", some "B", false, []⟩] 0).rotationCalls = 4
    ∧ ¬((processRun false true (fun _ => GenOutcome.err "429 quota exceeded")
      [⟨"ka", some "A", true, []⟩, ⟨"kb", some "B", false, []⟩] 0).rotationCalls ≤
        ([⟨"ka", some "A", true, []⟩, ⟨"kb", some "B", false, []⟩] : List Credential).length - 1)
    ∧ (processRun false true (fun _ => GenOutcome.err "429 quota exceeded")
      [⟨"ka", some "A", true, []⟩, ⟨"kb", some "B", false, []⟩] 0).surfaced = none := by
  decide

/-- C1 amended: for a provider with K credentials (all usable: non-empty
keys, no `YOUR_KEY` placeholder, truthy labels), auto-switch enabled, and
an adapter raising a quota-classified error on every call
(`maxAttempts = max(2K, 1)`): when K ≥ 2, `process()` performs exactly 2K
attempts, invokes rotation on every failed attempt (2K times), and returns
the empty string with no error surfaced (nothing is raised, logged or
notified — the loop exhausts with `last_error` unset); when K = 1,
`process()` performs exactly 1 attempt, invokes rotation once (which
returns none), and returns the empty string with the quota error
surfaced. -/
theorem c1_amended_quota_exhaustion (keys : List Credential) (m : String) (now : Int)
    (hg : goodCreds keys) (hone : exactlyOneActive keys)
    (hq : isQuotaRetry m = true) :
    (2 ≤ keys.length →
      (processRun false true (fun _ => GenOutcome.err m) keys now).attempts = 2 * keys.length
      ∧ (processRun false true (fun _ => GenOutcome.err m) keys now).rotationCalls = 2 * keys.length
      ∧ (processRun false true (fun _ => GenOutcome.err m) keys now).output = ""
      ∧ (processRun false true (fun _ => GenOutcome.err m) keys now).surfaced = none
      ∧ (processRun false true (fun _ => GenOutcome.err m) keys now).errorNotified = false
      ∧ (processRun false true (fun _ => GenOutcome.err m) keys now).savedCalled = false)
    ∧ (keys.length = 1 →
      (processRun false true (fun _ => GenOutcome.err m) keys now).attempts = 1
      ∧ (processRun false true (fun _ => GenOutcome.err m) keys now).rotationCalls = 1
      ∧ (processRun false true (fun _ => GenOutcome.err m) keys now).output = ""
      ∧ (processRun false true (fun _ => GenOutcome.err m) keys now).surfaced = some m) := by
  constructor
  · intro hlen2
    have hfuel : maxAttemptsFor keys = 2 * keys.length := by
      rw [maxAttemptsFor]; omega
    have hrun : processRun false true (fun _ => GenOutcome.err m) keys now =
        processLoop true (fun _ => GenOutcome.err m) keys now (2 * keys.length) 0 0 [] := by
      rw [show processRun false true (fun _ => GenOutcome.err m) keys now =
        processLoop true (fun _ => GenOutcome.err m) keys now (maxAttemptsFor keys) 0 0 []
        from rfl, hfuel]
    obtain ⟨a, ha, _, heq⟩ := one_active_decomp keys hone
    have h := processLoop_quota_allfail keys m now hg hq hlen2
      (2 * keys.length) a 0 0 [] ha
    rw [← heq] at h
    obtain ⟨h1, h2, h3, h4, h5, h6⟩ := h
    rw [hrun]
    exact ⟨by rw [h2]; omega, by rw [h3]; omega, h1, h4, h5, h6⟩
  · intro hlen1
    have hfuel : maxAttemptsFor keys = 2 := by
      rw [maxAttemptsFor]; omega
    have hrun : processRun false true (fun _ => GenOutcome.err m) keys now =
        processLoop true (fun _ => GenOutcome.err m) keys now (1 + 1) 0 0 [] := by
      rw [show processRun false true (fun _ => GenOutcome.err m) keys now =
        processLoop true (fun _ => GenOutcome.err m) keys now (maxAttemptsFor keys) 0 0 []
        from rfl, hfuel]
    obtain ⟨a, ha, _, heq⟩ := one_active_decomp keys hone
    have ha0 : a = 0 := by omega
    subst ha0
    have h := processLoop_quota_single keys m now hg hq hlen1 1 0 0 []
    rw [← heq] at h
    rw [hrun, h]
    exact ⟨rfl, rfl, rfl, rfl⟩

/-- Witness for C1 at concrete inputs: two usable credentials with an
always-quota adapter give 4 attempts and nothing surfaced; one credential
gives 1 attempt with the error surfaced. -/
theorem c1_amended_quota_exhaustion_witness :
    (processRun false true (fun _ => GenOutcome.err "429 rate limit")
      [⟨"ka", some "A", true, []⟩, ⟨"kb", some "B", false, []⟩] 0).attempts =
      2 * ([⟨"ka", some "A", true, []⟩, ⟨"kb", some "B", false, []⟩] : List Credential).length
    ∧ (processRun false true (fun _ => GenOutcome.err "429 rate limit")
      [⟨"ka", some "A", true, []⟩, ⟨"kb", some "B", false, []⟩] 0).surfaced = none
    ∧ (processRun false true (fun _ => GenOutcome.err "quota reached")
      [⟨"kc", some "C", true, []⟩] 0).attempts = 1
    ∧ (processRun false true (fun _ => GenOutcome.err "quota reached")
      [⟨"kc", some "C", true, []⟩] 0).surfaced = some "quota reached" :=
  ⟨((c1_amended_quota_exhaustion
      [⟨"ka", some "A", true, []⟩, ⟨"kb", some "B", false, []⟩] "429 rate limit" 0
      (by decide) (by decide) (by decide)).1 (by decide)).1,
   ((c1_amended_quota_exhaustion
      [⟨"ka", some "A", true, []⟩, ⟨"kb", some "B", false, []⟩] "429 rate limit" 0
      (by decide) (by decide) (by decide)).1 (by decide)).2.2.2.1,
   ((c1_amended_quota_exhaustion [⟨"kc", some "C", true, []⟩] "quota reached" 0
      (by decide) (by decide) (by decide)).2 (by decide)).1,
   ((c1_amended_quota_exhaustion [⟨"kc", some "C", true, []⟩] "quota reached" 0
      (by decide) (by decide) (by decide)).2 (by decide)).2.2.2⟩

/-- C6 counterexample: the claim that the loop classifies quota-exceeded
exactly when the lowercased message contains `429`, `quota` or `exhausted`
is false — the loop's test (processor.py line 218) checks only `429` and
`quota`, so the message `Resource exhausted` is not classified as quota:
with auto-switch enabled and two credentials the loop performs no rotation
and surfaces the error on the first attempt, where the claim's classifier
mandates rotate-and-continue. -/
theorem c6_counterexample :
    isQuotaRetry "Resource exhausted" = false
    ∧ specQuotaClassifierC6 "Resource exhausted" = true
    ∧ (processLoop true (fun _ => GenOutcome.err "Resource exhausted")
        [⟨"ka", some "A", true, []⟩, ⟨"kb", some "B", false, []⟩] 0 4 0 0 []).rotationCalls = 0
    ∧ (processLoop true (fun _ => GenOutcome.err "Resource exhausted")
        [⟨"ka", some "A", true, []⟩, ⟨"kb", some "B", false, []⟩] 0 4 0 0 []).surfaced =
        some "Resource exhausted" := by
  decide

/-- C6 amended: the retry loop classifies a failed attempt as
quota-exceeded exactly when the lowercased error message contains `429` or
`quota` (`exhausted` is not checked); any failure not so classified, or a
quota-classified failure with auto-switch disabled, breaks the loop on its
first occurrence and surfaces that error without any rotation; a
quota-classified failure with auto-switch enabled and a successful
rotation continues the loop (nothing surfaced, rotation count
incremented). -/
theorem c6_amended_classifier :
    (∀ (keys : List Credential) (m : String) (now : Int) (autoSwitch : Bool)
        (fuel attempt rot : Nat) (sw : List String),
      goodCreds keys → exactlyOneActive keys →
      (isQuotaRetry m = false ∨ autoSwitch = false) →
      processLoop autoSwitch (fun _ => GenOutcome.err m) keys now (fuel + 1) attempt rot sw =
        ⟨"", attempt + 1, rot, sw.reverse, some m, false, false, keys, false⟩)
    ∧ (∀ (keys : List Credential) (m : String) (now : Int)
        (attempt rot : Nat) (sw : List String),
      goodCreds keys → exactlyOneActive keys → 2 ≤ keys.length →
      isQuotaRetry m = true →
      (processLoop true (fun _ => GenOutcome.err m) keys now 1 attempt rot sw).surfaced = none
      ∧ (processLoop true (fun _ => GenOutcome.err m) keys now 1 attempt rot sw).rotationCalls = rot + 1
      ∧ (processLoop true (fun _ => GenOutcome.err m) keys now 1 attempt rot sw).attempts = attempt + 1
      ∧ (processLoop true (fun _ => GenOutcome.err m) keys now 1 attempt rot sw).output = "") := by
  constructor
  · intro keys m now autoSwitch fuel attempt rot sw hg hone hcase
    obtain ⟨a, ha, _, heq⟩ := one_active_decomp keys hone
    obtain ⟨c, hc⟩ := exists_getElem?_of_lt keys a ha
    have hmem := mem_of_getElem? keys a c hc
    have hga0 := get_active_key_patternAt keys a ha
    rw [← heq] at hga0
    have hga : get_active_key keys = some { c with active := true } := by
      rw [hga0, hc]
      rfl
    rw [processLoop_step_err autoSwitch _ keys now fuel attempt rot sw _ m hga
      (by simpa using (hg c hmem).1) (by simpa using (hg c hmem).2.1) rfl]
    have hguard : (isQuotaRetry m && autoSwitch) = false := by
      rcases hcase with h | h <;> simp [h]
    rw [if_neg (by simp [hguard])]
  · intro keys m now attempt rot sw hg hone hlen hq
    obtain ⟨a, ha, _, heq⟩ := one_active_decomp keys hone
    have h := processLoop_quota_allfail keys m now hg hq hlen 1 a attempt rot sw ha
    rw [← heq] at h
    exact ⟨h.2.2.2.1, h.2.2.1, h.2.1, h.1⟩

/-- Witness for C6 at concrete inputs: a `503` failure breaks the loop at
once with no rotation even with auto-switch on; a quota failure with
auto-switch disabled also breaks; a quota failure with auto-switch on and
two credentials rotates and continues without surfacing. -/
theorem c6_amended_classifier_witness :
    processLoop true (fun _ => GenOutcome.err "503 service unavailable")
      [⟨"ka", some "A", true, []⟩, ⟨"kb", some "B", false, []⟩] 0 4 0 0 [] =
      ⟨"", 1, 0, [], some "503 service unavailable", false, false,
        [⟨"ka", some "A", true, []⟩, ⟨"kb", some "B", false, []⟩], false⟩
    ∧ processLoop false (fun _ => GenOutcome.err "429 quota hit")
      [⟨"ka", some "A", true, []⟩, ⟨"kb", some "B", false, []⟩] 0 4 0 0 [] =
      ⟨"", 1, 0, [], some "429 quota hit", false, false,
        [⟨"ka", some "A", true, []⟩, ⟨"kb", some "B", false, []⟩], false⟩
    ∧ (processLoop true (fun _ => GenOutcome.err "429 quota hit")
      [⟨"ka", some "A", true, []⟩, ⟨"kb", some "B", false, []⟩] 0 1 0 0 []).surfaced = none
    ∧ (processLoop true (fun _ => GenOutcome.err "429 quota hit")
      [⟨"ka", some "A", true, []⟩, ⟨"kb", some "B", false, []⟩] 0 1 0 0 []).rotationCalls = 1 :=
  ⟨c6_amended_classifier.1 [⟨"ka", some "A", true, []⟩, ⟨"kb", some "B", false, []⟩]
     "503 service unavailable" 0 true 3 0 0 [] (by decide) (by decide)
     (Or.inl (by decide)),
   c6_amended_classifier.1 [⟨"ka", some "A", true, []⟩, ⟨"kb", some "B", false, []⟩]
     "429 quota hit" 0 false 3 0 0 [] (by decide) (by decide) (Or.inr rfl),
   (c6_amended_classifier.2 [⟨"ka", some "A", true, []⟩, ⟨"kb", some "B", false, []⟩]
     "429 quota hit" 0 0 0 [] (by decide) (by decide) (by decide) (by decide)).1,
   (c6_amended_classifier.2 [⟨"ka", some "A", true, []⟩, ⟨"kb", some "B", false, []⟩]
     "429 quota hit" 0 0 0 [] (by decide) (by decide) (by decide) (by decide)).2.1⟩

end ClipGen
